import Mathlib

/-!
Shallow embedding of the progression / role-synchronization core of
`project_solaris_bot.py` (Project: SOLARIS Discord bot).

The SQLite `users` table is modelled as a partial map from user ids to
`MemberRecord`s.  The event handlers (`on_member_join`,
`on_raw_reaction_add`, `on_message`) are modelled as pure state
transformers that also report the sequence of rows persisted by
`update_user_data` and the role/announcement side effects issued through
`promote_user`.  External Discord state (the member's current roles, the
guild's role catalog, the presence of the announcements channel) is passed
in explicitly; Boolean parameters stand for the guard conditions the
handlers test (author is a bot, reaction matches the verification message,
and so on).
-/

/-- `XP_THRESHOLDS` from the source: `XP_THRESHOLDS[L]` is the cumulative
XP required to reach clearance level `L`. -/
def XP_THRESHOLDS : List Nat := [0, 100, 300, 600, 1000, 1500, 2100, 2800, 3600, 4500, 5500]

/-- The highest clearance level (the source's literal `10` in `level < 10`
and the top key of `CLEARANCE_ROLES`). -/
def MAX_LEVEL : Nat := 10

/-- `CLEARANCE_ROLES.get(level)` from the source: the display name of the
role for each clearance level, `none` outside the table. -/
def CLEARANCE_ROLES : Nat → Option String
  | 0 => some "CL-0: Recruit"
  | 1 => some "CL-1: Initiate"
  | 2 => some "CL-2: Asset"
  | 3 => some "CL-3: Agent"
  | 4 => some "CL-4: Field Agent"
  | 5 => some "CL-5: Senior Agent"
  | 6 => some "CL-6: Special Operative"
  | 7 => some "CL-7: Handler"
  | 8 => some "CL-8: Intelligence Officer"
  | 9 => some "CL-9: Shadow Commander"
  | 10 => some "CL-10: Control"
  | _ => none

/-- One row of the `users` table: `xp` and `clearance_level`. -/
structure MemberRecord where
  xp : Nat
  clearance_level : Nat
deriving DecidableEq, Repr

/-- The `users` table: a partial map from `user_id` to its row. -/
def Store : Type := Nat → Option MemberRecord

/-- `get_user_data` from the source: `SELECT xp, clearance_level ...` with
`fetchone() or (0, 0)` — an absent row reads as `(0, 0)`. -/
def get_user_data (store : Store) (user_id : Nat) : Nat × Nat :=
  match store user_id with
  | some r => (r.xp, r.clearance_level)
  | none => (0, 0)

/-- `update_user_data` from the source: `INSERT OR REPLACE INTO users`. -/
def update_user_data (store : Store) (user_id xp level : Nat) : Store :=
  fun id => if id = user_id then some ⟨xp, level⟩ else store id

/-- The effect computed by one `promote_user` call: the role removals and
the role addition it issues, and whether the promotion announcement is
sent (the source sends it whenever the `announcements` channel exists). -/
structure RoleDelta where
  toRemove : List String
  toAdd : Option String
  announced : Bool
deriving DecidableEq, Repr

/-- `promote_user(member, new_level, guild)` from the source.
`memberRoles` is the member's current role-name set, `guildRoles` the
guild's role catalog (names that `discord.utils.get(guild.roles, ...)`
can resolve), `hasAnnouncements` whether the `announcements` channel
exists.  For each `level in range(0, new_level)` the role is removed when
its name is in the table, resolves in the guild, and the member holds it;
the `new_level` role is added (without checking whether the member already
holds it) when its name resolves in the guild. -/
def promote_user (memberRoles : List String) (new_level : Nat) (guildRoles : List String)
    (hasAnnouncements : Bool) : RoleDelta :=
  { toRemove := (List.range new_level).filterMap (fun level =>
      match CLEARANCE_ROLES level with
      | some role_name =>
          if role_name ∈ guildRoles ∧ role_name ∈ memberRoles then some role_name else none
      | none => none),
    toAdd := match CLEARANCE_ROLES new_level with
      | some new_role_name => if new_role_name ∈ guildRoles then some new_role_name else none
      | none => none,
    announced := hasAnnouncements }

/-- Applying a `RoleDelta` to a member's role set, with the platform's
semantics: removed roles disappear, and adding an already-held role is a
no-op. -/
def applyDelta (roles : List String) (d : RoleDelta) : List String :=
  let afterRemove := roles.filter (fun n => decide (¬ n ∈ d.toRemove))
  match d.toAdd with
  | some n => if n ∈ afterRemove then afterRemove else afterRemove ++ [n]
  | none => afterRemove

/-- What one event handler run did: the resulting store, the rows
persisted for the touched member in order (`update_user_data` calls), the
`new_level` passed to `promote_user` if it was called, and the
`RoleDelta` that call computed. -/
structure HandlerOutcome where
  store : Store
  writes : List MemberRecord
  promotion : Option Nat
  roleDelta : Option RoleDelta

/-- `OnboardingCog.on_member_join` from the source, restricted to its
store effect: it unconditionally runs `update_user_data(member.id, 0, 0)`.
(The recruit-role assignment, welcome DM and verification message are side
effects outside the progression store and are not needed here.) -/
def on_member_join (store : Store) (user_id : Nat) : HandlerOutcome :=
  { store := update_user_data store user_id 0 0,
    writes := [⟨0, 0⟩],
    promotion := none,
    roleDelta := none }

/-- `OnboardingCog.on_raw_reaction_add` from the source.  The Booleans
stand for the source's guards in order: the reaction is on the stored
verification message, the emoji is the check mark, the member object
resolved, the member is a bot.  When all guards pass and the stored level
is `0`, the source runs `update_user_data(user_id, 0, 1)` and
`promote_user(member, 1, guild)`. -/
def on_raw_reaction_add (store : Store) (matchesVerificationMsg emojiIsCheck memberFound
    memberIsBot : Bool) (user_id : Nat) (memberRoles guildRoles : List String)
    (hasAnnouncements : Bool) : HandlerOutcome :=
  if !matchesVerificationMsg then ⟨store, [], none, none⟩
  else if !emojiIsCheck then ⟨store, [], none, none⟩
  else if memberFound && memberIsBot then ⟨store, [], none, none⟩
  else if (get_user_data store user_id).2 = 0 then
    { store := update_user_data store user_id 0 1,
      writes := [⟨0, 1⟩],
      promotion := some 1,
      roleDelta := some (promote_user memberRoles 1 guildRoles hasAnnouncements) }
  else ⟨store, [], none, none⟩

/-- `LevelingCog.on_message` from the source: bots are ignored; otherwise
`xp += 1` is persisted with the old level, and then, if `level < 10` and
the new xp reaches `XP_THRESHOLDS[level + 1]`, the record is persisted
again with `level + 1` and `promote_user` runs. -/
def on_message (store : Store) (author_id : Nat) (authorIsBot : Bool)
    (authorRoles guildRoles : List String) (hasAnnouncements : Bool) : HandlerOutcome :=
  if authorIsBot then ⟨store, [], none, none⟩
  else
    let xp0 := (get_user_data store author_id).1
    let level := (get_user_data store author_id).2
    let xp := xp0 + 1
    let store1 := update_user_data store author_id xp level
    if level < 10 then
      if XP_THRESHOLDS.getD (level + 1) 0 ≤ xp then
        { store := update_user_data store1 author_id xp (level + 1),
          writes := [⟨xp, level⟩, ⟨xp, level + 1⟩],
          promotion := some (level + 1),
          roleDelta := some (promote_user authorRoles (level + 1) guildRoles hasAnnouncements) }
      else ⟨store1, [⟨xp, level⟩], none, none⟩
    else ⟨store1, [⟨xp, level⟩], none, none⟩

/-- Modelled from the spec: `threshold(L)`, the cumulative points required
to reach level `L`, read off the source's `XP_THRESHOLDS` table. -/
def threshold (L : Nat) : Nat := XP_THRESHOLDS.getD L 0

/-- Modelled from the spec: the level a points total should map to — "the
largest index `L` in `LevelDefinition` such that `points >= threshold(L)`"
(§3, §4.1 of the spec).  Not computed anywhere in the source; used here as
the specification side of the level invariant. -/
def levelFromPoints (points : Nat) : Nat :=
  ((List.range (MAX_LEVEL + 1)).filter (fun L => decide (threshold L ≤ points))).foldl Nat.max 0

/-- Modelled from the spec: `applyActivity(memberID, pointsDelta)` (§4.1),
realized by the source's `on_message` update logic with the hardcoded
`xp += 1` generalized to an arbitrary non-negative `delta`; the promotion
step is the source's: one `level < 10` check against
`XP_THRESHOLDS[level + 1]`, advancing by at most one level. -/
def applyActivityRec (r : MemberRecord) (delta : Nat) : MemberRecord :=
  let xp := r.xp + delta
  if r.clearance_level < 10 then
    if XP_THRESHOLDS.getD (r.clearance_level + 1) 0 ≤ xp then
      ⟨xp, r.clearance_level + 1⟩
    else ⟨xp, r.clearance_level⟩
  else ⟨xp, r.clearance_level⟩

/-- The empty `users` table. -/
def emptyStore : Store := fun _ => none

/-- The store after `n` activity messages from (non-bot) member `user_id`
starting from an empty table — the activity path of the source applied to
a fresh, zero-valued record. -/
def runActivity (user_id : Nat) (authorRoles guildRoles : List String)
    (hasAnnouncements : Bool) : Nat → Store
  | 0 => emptyStore
  | n + 1 =>
      (on_message (runActivity user_id authorRoles guildRoles hasAnnouncements n)
        user_id false authorRoles guildRoles hasAnnouncements).store


/-! ### Helper lemmas -/

lemma foldl_max_init_le (l : List Nat) (b : Nat) : b ≤ l.foldl Nat.max b := by
  induction l generalizing b with
  | nil => simp
  | cons a l ih => exact le_trans (Nat.le_max_left b a) (ih _)

lemma le_foldl_max_of_mem (l : List Nat) (b x : Nat) (hx : x ∈ l) : x ≤ l.foldl Nat.max b := by
  induction l generalizing b with
  | nil => cases hx
  | cons a l ih =>
    rcases List.mem_cons.mp hx with rfl | h
    · exact le_trans (Nat.le_max_right b x) (foldl_max_init_le _ _)
    · exact ih _ h

lemma foldl_max_le (l : List Nat) (b c : Nat) (hb : b ≤ c) (hl : ∀ x ∈ l, x ≤ c) :
    l.foldl Nat.max b ≤ c := by
  induction l generalizing b with
  | nil => simpa
  | cons a l ih =>
    exact ih _ (Nat.max_le.mpr ⟨hb, hl a (List.mem_cons_self a l)⟩)
      (fun x hx => hl x (List.mem_cons_of_mem _ hx))

lemma foldl_max_eq_init_or_mem (l : List Nat) (b : Nat) :
    l.foldl Nat.max b = b ∨ l.foldl Nat.max b ∈ l := by
  induction l generalizing b with
  | nil => left; rfl
  | cons a l ih =>
    have hmax : Nat.max b a = b ∨ Nat.max b a = a := by
      show max b a = b ∨ max b a = a
      rw [Nat.max_def]
      split <;> simp
    rcases ih (Nat.max b a) with h | h
    · rcases hmax with hb | ha
      · left
        rw [List.foldl_cons, h, hb]
      · right
        rw [List.foldl_cons, h, ha]
        exact List.mem_cons_self a l
    · right
      exact List.mem_cons_of_mem _ h

lemma threshold_le_levelFromPoints (p : Nat) : threshold (levelFromPoints p) ≤ p := by
  rcases foldl_max_eq_init_or_mem
      ((List.range (MAX_LEVEL + 1)).filter (fun L => decide (threshold L ≤ p))) 0 with h | h
  · rw [levelFromPoints, h]
    exact Nat.zero_le p
  · have := (List.mem_filter.mp h).2
    rw [decide_eq_true_eq] at this
    exact this

lemma levelFromPoints_le (p : Nat) : levelFromPoints p ≤ MAX_LEVEL := by
  apply foldl_max_le _ _ _ (Nat.zero_le _)
  intro x hx
  have := List.mem_range.mp (List.mem_filter.mp hx).1
  omega

lemma le_levelFromPoints (p L : Nat) (hL : L ≤ MAX_LEVEL) (ht : threshold L ≤ p) :
    L ≤ levelFromPoints p := by
  apply le_foldl_max_of_mem
  exact List.mem_filter.mpr ⟨List.mem_range.mpr (by omega), decide_eq_true_eq.mpr ht⟩

lemma threshold_lt_threshold (a b : Nat) (hab : a < b) (hb : b ≤ MAX_LEVEL) :
    threshold a < threshold b := by
  have h11 : a < 11 ∧ b < 11 := by constructor <;> simp [MAX_LEVEL] at hb ⊢ <;> omega
  have : ∀ a < 11, ∀ b < 11, a < b → threshold a < threshold b := by decide
  exact this a h11.1 b h11.2 hab

/-- The core arithmetic of the level invariant: reading off the source's
single-step promotion check against the spec-side `levelFromPoints`. -/
lemma levelFromPoints_step (xp : Nat) :
    levelFromPoints (xp + 1) =
      if levelFromPoints xp < 10 ∧ threshold (levelFromPoints xp + 1) ≤ xp + 1
      then levelFromPoints xp + 1 else levelFromPoints xp := by
  have hA := threshold_le_levelFromPoints xp
  have hA1 := threshold_le_levelFromPoints (xp + 1)
  have hB := levelFromPoints_le xp
  have hB1 := levelFromPoints_le (xp + 1)
  split_ifs with h
  · obtain ⟨hlt, hth⟩ := h
    have hge : levelFromPoints xp + 1 ≤ levelFromPoints (xp + 1) :=
      le_levelFromPoints _ _ (by simp [MAX_LEVEL] at hB ⊢; omega) hth
    by_contra hne
    have hgt : levelFromPoints xp + 2 ≤ levelFromPoints (xp + 1) := by omega
    have hmono := threshold_lt_threshold (levelFromPoints xp + 1) (levelFromPoints (xp + 1))
      (by omega) hB1
    have : threshold (levelFromPoints xp + 1) ≤ xp :=
      by omega
    have : levelFromPoints xp + 1 ≤ levelFromPoints xp :=
      le_levelFromPoints _ _ (by simp [MAX_LEVEL] at hB hlt ⊢; omega) this
    omega
  · push_neg at h
    have hge : levelFromPoints xp ≤ levelFromPoints (xp + 1) :=
      le_levelFromPoints _ _ hB (by omega)
    rcases Nat.lt_or_ge (levelFromPoints xp) 10 with hlt | hge10
    · have hth := h hlt
      by_contra hne
      have hgt : levelFromPoints xp + 1 ≤ levelFromPoints (xp + 1) := by omega
      have hmono : threshold (levelFromPoints xp + 1) ≤ threshold (levelFromPoints (xp + 1)) := by
        rcases Nat.eq_or_lt_of_le hgt with heq | hlt2
        · rw [heq]
        · exact le_of_lt (threshold_lt_threshold _ _ hlt2 hB1)
      omega
    · have : levelFromPoints xp = 10 := by simp [MAX_LEVEL] at hB; omega
      have : levelFromPoints (xp + 1) ≤ 10 := by simpa [MAX_LEVEL] using hB1
      omega

lemma get_update_same (store : Store) (uid xp lv : Nat) :
    get_user_data (update_user_data store uid xp lv) uid = (xp, lv) := by
  simp [get_user_data, update_user_data]

/-- One non-bot `on_message` step, seen through the member's stored row. -/
lemma on_message_record (store : Store) (uid : Nat) (roles guild : List String) (b : Bool) :
    get_user_data ((on_message store uid false roles guild b).store) uid =
      (if (get_user_data store uid).2 < 10 ∧
          threshold ((get_user_data store uid).2 + 1) ≤ (get_user_data store uid).1 + 1
       then ((get_user_data store uid).1 + 1, (get_user_data store uid).2 + 1)
       else ((get_user_data store uid).1 + 1, (get_user_data store uid).2)) := by
  simp only [on_message, threshold, Bool.false_eq_true, if_false]
  split_ifs with h1 h2 h3 h3 <;> simp_all [get_update_same]
  omega

/-! ### Claim theorems -/

/-- Claim C1: For every sequence of non-negative point deltas applied to a fresh
(zero-valued) member record via the activity path — the source's
`on_message`, which awards exactly +1 point per activity event — after
every step the persisted record satisfies
`level = max {L | points ≥ threshold L}`. -/
theorem activity_path_preserves_level_invariant (user_id : Nat)
    (authorRoles guildRoles : List String) (hasAnnouncements : Bool) (n : Nat) :
    (get_user_data (runActivity user_id authorRoles guildRoles hasAnnouncements n) user_id).2 =
      levelFromPoints
        (get_user_data (runActivity user_id authorRoles guildRoles hasAnnouncements n)
          user_id).1 := by
  induction n with
  | zero =>
    have h0 : get_user_data (runActivity user_id authorRoles guildRoles hasAnnouncements 0)
        user_id = (0, 0) := rfl
    rw [h0]
    decide
  | succ n ih =>
    rw [runActivity, on_message_record]
    have hstep := levelFromPoints_step
      (get_user_data (runActivity user_id authorRoles guildRoles hasAnnouncements n) user_id).1
    rw [← ih] at hstep
    split_ifs with h <;> simp [hstep, h]

/-- Claim C4: The verification operation (the source's `on_raw_reaction_add`
with all guards passing and a non-bot member) promotes from level 0 to
level 1 exactly when the stored level is 0, is otherwise a no-op, and a
second verification on the resulting state changes nothing and fires no
further promotion. -/
theorem verification_promotes_iff_level_zero (store : Store) (uid : Nat)
    (roles guild : List String) (b : Bool) :
    ((on_raw_reaction_add store true true true false uid roles guild b).promotion
        = if (get_user_data store uid).2 = 0 then some 1 else none) ∧
    ((on_raw_reaction_add store true true true false uid roles guild b).store
        = if (get_user_data store uid).2 = 0 then update_user_data store uid 0 1 else store) ∧
    ((get_user_data (on_raw_reaction_add store true true true false uid roles guild b).store
        uid).2 = if (get_user_data store uid).2 = 0 then 1 else (get_user_data store uid).2) ∧
    ((on_raw_reaction_add
        (on_raw_reaction_add store true true true false uid roles guild b).store
        true true true false uid roles guild b).store
      = (on_raw_reaction_add store true true true false uid roles guild b).store) ∧
    ((on_raw_reaction_add
        (on_raw_reaction_add store true true true false uid roles guild b).store
        true true true false uid roles guild b).promotion = none) := by
  by_cases h : (get_user_data store uid).2 = 0 <;>
    simp [on_raw_reaction_add, h, get_update_same]

/-- Claim C9: A member whose stored level is `MAX_LEVEL` receiving a further
activity message: points increase by one, the level stays `MAX_LEVEL`,
`promote_user` is not called (so no role change and no promotion
announcement), and only that single row is persisted. -/
theorem max_level_activity_frame (store : Store) (uid : Nat)
    (roles guild : List String) (b : Bool)
    (h : (get_user_data store uid).2 = MAX_LEVEL) :
    get_user_data ((on_message store uid false roles guild b).store) uid
        = ((get_user_data store uid).1 + 1, MAX_LEVEL) ∧
    (on_message store uid false roles guild b).promotion = none ∧
    (on_message store uid false roles guild b).roleDelta = none ∧
    (on_message store uid false roles guild b).writes
        = [⟨(get_user_data store uid).1 + 1, MAX_LEVEL⟩] := by
  have h10 : ¬ ((get_user_data store uid).2 < 10) := by
    rw [h]
    decide
  simp [on_message, h10, get_update_same, h, MAX_LEVEL]

/-- Claim C9, witness: a concrete member at `MAX_LEVEL` with 6000 points. -/
theorem max_level_activity_frame_witness :
    (get_user_data (fun id => if id = 1 then some ⟨6000, 10⟩ else none) 1).2 = MAX_LEVEL ∧
    (get_user_data ((on_message (fun id => if id = 1 then some ⟨6000, 10⟩ else none) 1 false
        [] [] false).store) 1
        = ((get_user_data (fun id => if id = 1 then some ⟨6000, 10⟩ else none) 1).1 + 1,
            MAX_LEVEL) ∧
    (on_message (fun id => if id = 1 then some ⟨6000, 10⟩ else none) 1 false
        [] [] false).promotion = none ∧
    (on_message (fun id => if id = 1 then some ⟨6000, 10⟩ else none) 1 false
        [] [] false).roleDelta = none ∧
    (on_message (fun id => if id = 1 then some ⟨6000, 10⟩ else none) 1 false
        [] [] false).writes
        = [⟨(get_user_data (fun id => if id = 1 then some ⟨6000, 10⟩ else none) 1).1 + 1,
            MAX_LEVEL⟩]) :=
  ⟨by decide, max_level_activity_frame (fun id => if id = 1 then some ⟨6000, 10⟩ else none)
    1 [] [] false (by decide)⟩

/-- Claim C10: A message authored by a bot, and a verification reaction whose
resolved member is a bot, leave the entire store unchanged, persist no
row, and produce no promotion or role/announcement side effect. -/
theorem bot_events_have_no_effect (store : Store) (uid : Nat)
    (roles guild : List String) (b m e : Bool) :
    (on_message store uid true roles guild b).store = store ∧
    (on_message store uid true roles guild b).writes = [] ∧
    (on_message store uid true roles guild b).promotion = none ∧
    (on_message store uid true roles guild b).roleDelta = none ∧
    (on_raw_reaction_add store m e true true uid roles guild b).store = store ∧
    (on_raw_reaction_add store m e true true uid roles guild b).writes = [] ∧
    (on_raw_reaction_add store m e true true uid roles guild b).promotion = none ∧
    (on_raw_reaction_add store m e true true uid roles guild b).roleDelta = none := by
  refine ⟨rfl, rfl, rfl, rfl, ?_, ?_, ?_, ?_⟩ <;> cases m <;> cases e <;> rfl

/-- Claim C2, counterexample: `on_member_join` unconditionally persists `(0, 0)`
(`INSERT OR REPLACE`), so a rejoining member with a nonzero record loses
both points and level; and the verification write persists `xp` as `0`,
so a verifying member's points can decrease. -/
theorem join_and_verification_decrease_counterexample :
    ((get_user_data
        (on_member_join (fun id => if id = 42 then some ⟨500, 3⟩ else none) 42).store 42).1
      < (get_user_data (fun id => if id = 42 then some ⟨500, 3⟩ else none) 42).1) ∧
    ((get_user_data
        (on_member_join (fun id => if id = 42 then some ⟨500, 3⟩ else none) 42).store 42).2
      < (get_user_data (fun id => if id = 42 then some ⟨500, 3⟩ else none) 42).2) ∧
    ((get_user_data
        (on_raw_reaction_add (fun id => if id = 7 then some ⟨50, 0⟩ else none)
          true true true false 7 [] [] false).store 7).1
      < (get_user_data (fun id => if id = 7 then some ⟨50, 0⟩ else none) 7).1) := by
  decide

/-- Claim C2, amended: the activity operation never decreases stored points or
level, and the verification operation never decreases the stored level;
but `on_member_join` resets the record to `(0, 0)` and verification
persists points as `0`, so under those two operations points (and, on a
rejoin, level) can decrease. -/
theorem activity_and_verification_monotone (store : Store) (uid : Nat)
    (roles guild : List String) (b bot m e f ib : Bool) :
    ((get_user_data store uid).1
        ≤ (get_user_data ((on_message store uid bot roles guild b).store) uid).1) ∧
    ((get_user_data store uid).2
        ≤ (get_user_data ((on_message store uid bot roles guild b).store) uid).2) ∧
    ((get_user_data store uid).2
        ≤ (get_user_data ((on_raw_reaction_add store m e f ib uid roles guild b).store)
            uid).2) := by
  refine ⟨?_, ?_, ?_⟩
  · cases bot
    · rw [on_message_record]
      split_ifs <;> simp
    · simp [on_message]
  · cases bot
    · rw [on_message_record]
      split_ifs <;> simp
    · simp [on_message]
  · by_cases h : (get_user_data store uid).2 = 0 <;>
      cases m <;> cases e <;> cases f <;> cases ib <;>
      simp [on_raw_reaction_add, h, get_update_same]

/-- Claim C3, counterexample: against the source's promotion logic, a single
delta of 650 points from a fresh record yields level 1, not the highest
level (3) whose threshold is met by the new total. -/
theorem multi_threshold_delta_counterexample :
    (applyActivityRec ⟨0, 0⟩ 650).xp = 650 ∧
    (applyActivityRec ⟨0, 0⟩ 650).clearance_level = 1 ∧
    levelFromPoints 650 = 3 ∧
    (applyActivityRec ⟨0, 0⟩ 650).clearance_level ≠ levelFromPoints 650 := by
  decide

/-- Claim C3, amended: the activity operation raises the level by at most one per
call, so a delta crossing several thresholds does not promote directly to
the highest met level; with the source's actual per-event delta of 1 a
single event never crosses more than one threshold, and the resulting
level is exactly the highest level whose threshold is met. -/
theorem activity_promotes_at_most_one_level (r : MemberRecord) (delta : Nat) :
    (applyActivityRec r delta).clearance_level ≤ r.clearance_level + 1 ∧
    (r.clearance_level = levelFromPoints r.xp →
      (applyActivityRec r 1).clearance_level = levelFromPoints (r.xp + 1)) := by
  constructor
  · simp only [applyActivityRec]
    split_ifs <;> simp
  · intro h
    have hstep := levelFromPoints_step r.xp
    rw [← h] at hstep
    simp only [applyActivityRec, threshold] at hstep ⊢
    split_ifs at hstep ⊢ with h1 h2 <;> simp_all <;> omega

/-- Claim C3, amended, witness: a member at 99 points, level 0 (satisfying the
level invariant) gaining one point is promoted exactly to level 1. -/
theorem activity_promotes_at_most_one_level_witness :
    (applyActivityRec ⟨99, 0⟩ 1).clearance_level ≤ 0 + 1 ∧
    ((⟨99, 0⟩ : MemberRecord).clearance_level = levelFromPoints 99 ∧
      (applyActivityRec ⟨99, 0⟩ 1).clearance_level = levelFromPoints (99 + 1)) :=
  ⟨(activity_promotes_at_most_one_level ⟨99, 0⟩ 1).1,
    by decide,
    (activity_promotes_at_most_one_level ⟨99, 0⟩ 1).2 (by decide)⟩

/-- Claim C5, counterexample: an activity event that crosses a threshold persists
two separate rows; the first persisted row carries the new points with the
old level, a state in which `level ≠ max {L | points ≥ threshold L}`. -/
theorem threshold_crossing_persists_intermediate_state :
    (on_message (fun id => if id = 3 then some ⟨99, 0⟩ else none) 3 false [] [] false).writes
        = [⟨100, 0⟩, ⟨100, 1⟩] ∧
    levelFromPoints 100 ≠ 0 := by
  decide

/-- Claim C5, amended: starting from a record satisfying the level invariant, an
activity event that crosses a threshold persists exactly two rows — first
the new points with the old level (transiently violating the invariant),
then the new points with the new level — a non-crossing event persists
one row, and the last persisted row always satisfies the invariant. -/
theorem activity_writes_shape (store : Store) (uid : Nat)
    (roles guild : List String) (b : Bool)
    (h : (get_user_data store uid).2 = levelFromPoints (get_user_data store uid).1) :
    ((on_message store uid false roles guild b).writes =
      if (get_user_data store uid).2 < 10 ∧
          threshold ((get_user_data store uid).2 + 1) ≤ (get_user_data store uid).1 + 1
      then [⟨(get_user_data store uid).1 + 1, (get_user_data store uid).2⟩,
            ⟨(get_user_data store uid).1 + 1, (get_user_data store uid).2 + 1⟩]
      else [⟨(get_user_data store uid).1 + 1, (get_user_data store uid).2⟩]) ∧
    (∀ w, ((on_message store uid false roles guild b).writes).getLast? = some w →
      w.clearance_level = levelFromPoints w.xp) := by
  have hstep := levelFromPoints_step (get_user_data store uid).1
  rw [← h] at hstep
  have hshape : (on_message store uid false roles guild b).writes =
      if (get_user_data store uid).2 < 10 ∧
          threshold ((get_user_data store uid).2 + 1) ≤ (get_user_data store uid).1 + 1
      then [⟨(get_user_data store uid).1 + 1, (get_user_data store uid).2⟩,
            ⟨(get_user_data store uid).1 + 1, (get_user_data store uid).2 + 1⟩]
      else [⟨(get_user_data store uid).1 + 1, (get_user_data store uid).2⟩] := by
    simp only [on_message, threshold, Bool.false_eq_true, if_false]
    split_ifs with h1 h2 h3 h3 <;> simp_all <;> omega
  refine ⟨hshape, ?_⟩
  intro w hw
  rw [hshape] at hw
  by_cases hc : (get_user_data store uid).2 < 10 ∧
      threshold ((get_user_data store uid).2 + 1) ≤ (get_user_data store uid).1 + 1
  · rw [if_pos hc] at hw
    have hw2 : w = ⟨(get_user_data store uid).1 + 1, (get_user_data store uid).2 + 1⟩ := by
      have := hw
      simp at this
      exact this.symm
    rw [hw2, hstep, if_pos hc]
  · rw [if_neg hc] at hw
    have hw2 : w = ⟨(get_user_data store uid).1 + 1, (get_user_data store uid).2⟩ := by
      have := hw
      simp at this
      exact this.symm
    rw [hw2, hstep, if_neg hc]

/-- Claim C5, amended, witness: the crossing case at 99 points, level 0. -/
theorem activity_writes_shape_witness :
    ((get_user_data (fun id => if id = 3 then some ⟨99, 0⟩ else none) 3).2
      = levelFromPoints (get_user_data (fun id => if id = 3 then some ⟨99, 0⟩ else none) 3).1) ∧
    (((on_message (fun id => if id = 3 then some ⟨99, 0⟩ else none) 3 false [] [] false).writes =
      if (get_user_data (fun id => if id = 3 then some ⟨99, 0⟩ else none) 3).2 < 10 ∧
          threshold ((get_user_data (fun id => if id = 3 then some ⟨99, 0⟩ else none) 3).2 + 1)
            ≤ (get_user_data (fun id => if id = 3 then some ⟨99, 0⟩ else none) 3).1 + 1
      then [⟨(get_user_data (fun id => if id = 3 then some ⟨99, 0⟩ else none) 3).1 + 1,
              (get_user_data (fun id => if id = 3 then some ⟨99, 0⟩ else none) 3).2⟩,
            ⟨(get_user_data (fun id => if id = 3 then some ⟨99, 0⟩ else none) 3).1 + 1,
              (get_user_data (fun id => if id = 3 then some ⟨99, 0⟩ else none) 3).2 + 1⟩]
      else [⟨(get_user_data (fun id => if id = 3 then some ⟨99, 0⟩ else none) 3).1 + 1,
              (get_user_data (fun id => if id = 3 then some ⟨99, 0⟩ else none) 3).2⟩]) ∧
    (∀ w, ((on_message (fun id => if id = 3 then some ⟨99, 0⟩ else none) 3 false
          [] [] false).writes).getLast? = some w →
      w.clearance_level = levelFromPoints w.xp)) :=
  ⟨by decide,
    activity_writes_shape (fun id => if id = 3 then some ⟨99, 0⟩ else none) 3 [] [] false
      (by decide)⟩

/-! ### Role-synchronizer helper lemmas -/

lemma CLEARANCE_ROLES_none_of_ge (n : Nat) : CLEARANCE_ROLES (n + 11) = none := rfl

lemma CLEARANCE_ROLES_inj (a b : Nat) (s : String) (ha : CLEARANCE_ROLES a = some s)
    (hb : CLEARANCE_ROLES b = some s) : a = b := by
  have hlt : ∀ x, CLEARANCE_ROLES x = some s → x < 11 := by
    intro x hx
    by_contra hge
    push_neg at hge
    obtain ⟨k, rfl⟩ : ∃ k, x = k + 11 := ⟨x - 11, by omega⟩
    rw [CLEARANCE_ROLES_none_of_ge] at hx
    cases hx
  have key : ∀ a, a < 11 → ∀ b, b < 11 → a ≠ b → CLEARANCE_ROLES a ≠ CLEARANCE_ROLES b := by
    decide
  by_contra hne
  exact key a (hlt a ha) b (hlt b hb) hne (ha.trans hb.symm)

lemma mem_promote_user_toRemove (roles : List String) (target : Nat) (guild : List String)
    (b : Bool) (n : String) :
    n ∈ (promote_user roles target guild b).toRemove ↔
      ∃ L, L < target ∧ CLEARANCE_ROLES L = some n ∧ n ∈ guild ∧ n ∈ roles := by
  simp only [promote_user, List.mem_filterMap, List.mem_range]
  constructor
  · rintro ⟨L, hL, hf⟩
    split at hf
    · rename_i name hCR
      by_cases hc : name ∈ guild ∧ name ∈ roles
      · rw [if_pos hc] at hf
        injection hf with hn
        subst hn
        exact ⟨L, hL, hCR, hc.1, hc.2⟩
      · rw [if_neg hc] at hf
        cases hf
    · cases hf
  · rintro ⟨L, hL, hCR, hg, hr⟩
    refine ⟨L, hL, ?_⟩
    rw [hCR]
    show (if n ∈ guild ∧ n ∈ roles then some n else none) = some n
    rw [if_pos ⟨hg, hr⟩]

lemma promote_user_toAdd_eq_some (roles : List String) (target : Nat) (guild : List String)
    (b : Bool) (n : String) :
    (promote_user roles target guild b).toAdd = some n ↔
      CLEARANCE_ROLES target = some n ∧ n ∈ guild := by
  simp only [promote_user]
  constructor
  · intro h
    split at h
    · rename_i name hCR
      by_cases hg : name ∈ guild
      · rw [if_pos hg] at h
        injection h with hn
        subst hn
        exact ⟨hCR, hg⟩
      · rw [if_neg hg] at h
        cases h
    · cases h
  · rintro ⟨hCR, hg⟩
    rw [hCR]
    show (if n ∈ guild then some n else none) = some n
    rw [if_pos hg]

lemma mem_applyDelta (roles : List String) (d : RoleDelta) (n : String) :
    n ∈ applyDelta roles d ↔ (n ∈ roles ∧ ¬ n ∈ d.toRemove) ∨ d.toAdd = some n := by
  have hfil : ∀ x : String, x ∈ roles.filter (fun y => decide (¬ y ∈ d.toRemove)) ↔
      (x ∈ roles ∧ ¬ x ∈ d.toRemove) := by
    intro x
    rw [List.mem_filter, decide_eq_true_eq]
  unfold applyDelta
  rcases had : d.toAdd with _ | m
  · show (n ∈ roles.filter (fun y => decide (¬ y ∈ d.toRemove))) ↔
      ((n ∈ roles ∧ ¬ n ∈ d.toRemove) ∨ (none : Option String) = some n)
    rw [hfil]
    simp
  · show (n ∈ if m ∈ roles.filter (fun y => decide (¬ y ∈ d.toRemove))
        then roles.filter (fun y => decide (¬ y ∈ d.toRemove))
        else roles.filter (fun y => decide (¬ y ∈ d.toRemove)) ++ [m]) ↔
      ((n ∈ roles ∧ ¬ n ∈ d.toRemove) ∨ some m = some n)
    by_cases hm : m ∈ roles.filter (fun y => decide (¬ y ∈ d.toRemove))
    · rw [if_pos hm, hfil]
      constructor
      · exact Or.inl
      · rintro (h | hsome)
        · exact h
        · injection hsome with hmn
          subst hmn
          exact (hfil m).mp hm
    · rw [if_neg hm, List.mem_append, hfil, List.mem_singleton]
      constructor
      · rintro (h | h)
        · exact Or.inl h
        · subst h
          exact Or.inr rfl
      · rintro (h | hsome)
        · exact Or.inl h
        · injection hsome with hmn
          subst hmn
          exact Or.inr rfl

lemma applyDelta_eq_self (roles : List String) (d : RoleDelta)
    (hrm : d.toRemove = []) (hadd : ∀ n, d.toAdd = some n → n ∈ roles) :
    applyDelta roles d = roles := by
  obtain ⟨rm, add, ann⟩ := d
  simp only at hrm hadd
  subst hrm
  have hfil : roles.filter (fun y => decide (¬ y ∈ ([] : List String))) = roles := by
    apply List.filter_eq_self.mpr
    intro a _
    rw [decide_eq_true_eq]
    exact List.not_mem_nil a
  rcases add with _ | m
  · show roles.filter (fun y => decide (¬ y ∈ ([] : List String))) = roles
    exact hfil
  · have hm : m ∈ roles := hadd m rfl
    show (if m ∈ roles.filter (fun y => decide (¬ y ∈ ([] : List String)))
        then roles.filter (fun y => decide (¬ y ∈ ([] : List String)))
        else roles.filter (fun y => decide (¬ y ∈ ([] : List String))) ++ [m]) = roles
    rw [hfil, if_pos hm]

/-- Claim C6, counterexample: `promote_user` adds the target role without
checking whether the member already holds it, so a second run on the
delta-applied role state still issues the target-role addition — the
second delta is not empty. -/
theorem sync_second_run_readds_target :
    (promote_user
        (applyDelta ["CL-0: Recruit"]
          (promote_user ["CL-0: Recruit"] 1 ["CL-0: Recruit", "CL-1: Initiate"] true))
        1 ["CL-0: Recruit", "CL-1: Initiate"] true).toAdd = some "CL-1: Initiate" ∧
    "CL-1: Initiate" ∈ applyDelta ["CL-0: Recruit"]
        (promote_user ["CL-0: Recruit"] 1 ["CL-0: Recruit", "CL-1: Initiate"] true) := by
  decide

/-- Claim C6, amended: running the synchronizer again, with the same target, on
the role state produced by applying the first run's delta yields no
removals, and its only action is re-adding the target tag the member
already holds, so applying the second delta leaves the role set
unchanged (the synchronizer is idempotent in effect, though the second
delta is not empty). -/
theorem sync_idempotent_in_effect (roles : List String) (target : Nat)
    (guild : List String) (b : Bool) :
    (promote_user (applyDelta roles (promote_user roles target guild b)) target guild b).toRemove
        = [] ∧
    applyDelta (applyDelta roles (promote_user roles target guild b))
        (promote_user (applyDelta roles (promote_user roles target guild b)) target guild b)
      = applyDelta roles (promote_user roles target guild b) := by
  have hrm : (promote_user (applyDelta roles (promote_user roles target guild b))
      target guild b).toRemove = [] := by
    rw [List.eq_nil_iff_forall_not_mem]
    intro n hn
    rw [mem_promote_user_toRemove] at hn
    obtain ⟨L, hLt, hCR, hg, hr1⟩ := hn
    rw [mem_applyDelta] at hr1
    rcases hr1 with ⟨hroles, hnotrm⟩ | hadd
    · exact hnotrm
        ((mem_promote_user_toRemove roles target guild b n).mpr ⟨L, hLt, hCR, hg, hroles⟩)
    · have htgt := ((promote_user_toAdd_eq_some roles target guild b n).mp hadd).1
      have : L = target := CLEARANCE_ROLES_inj L target n hCR htgt
      omega
  refine ⟨hrm, ?_⟩
  apply applyDelta_eq_self _ _ hrm
  intro n hn
  have hsame := (promote_user_toAdd_eq_some _ target guild b n).mp hn
  exact (mem_applyDelta roles _ n).mpr
    (Or.inr ((promote_user_toAdd_eq_some roles target guild b n).mpr hsame))

/-- Claim C7: the synchronizer's removal set contains only role tags whose level
is strictly below the target (so a member holding a tag at or above the
target level is never downgraded), and — whenever every held tag exists in
the guild's role catalog, as the platform guarantees — it removes exactly
the held tags whose level is below the target. -/
theorem sync_removes_exactly_below_target (roles : List String) (target : Nat)
    (guild : List String) (b : Bool) :
    (∀ n ∈ (promote_user roles target guild b).toRemove,
        ∀ L, CLEARANCE_ROLES L = some n → L < target) ∧
    ((∀ n ∈ roles, n ∈ guild) →
      ∀ n, n ∈ (promote_user roles target guild b).toRemove ↔
        (n ∈ roles ∧ ∃ L, L < target ∧ CLEARANCE_ROLES L = some n)) := by
  constructor
  · intro n hn L hL
    rw [mem_promote_user_toRemove] at hn
    obtain ⟨L2, hlt, hCR, _, _⟩ := hn
    rw [CLEARANCE_ROLES_inj L L2 n hL hCR]
    exact hlt
  · intro hsub n
    rw [mem_promote_user_toRemove]
    constructor
    · rintro ⟨L, hlt, hCR, hg, hr⟩
      exact ⟨hr, L, hlt, hCR⟩
    · rintro ⟨hr, L, hlt, hCR⟩
      exact ⟨L, hlt, hCR, hsub n hr, hr⟩

/-- Claim C7, witness: a member holding the level-0 and level-5 tags with
target level 2 in a guild knowing those tags; the higher tag stays. -/
theorem sync_removes_exactly_below_target_witness :
    (∀ n ∈ (["CL-0: Recruit", "CL-5: Senior Agent"] : List String),
        n ∈ (["CL-0: Recruit", "CL-1: Initiate", "CL-5: Senior Agent"] : List String)) ∧
    ((∀ n ∈ (promote_user ["CL-0: Recruit", "CL-5: Senior Agent"] 2
          ["CL-0: Recruit", "CL-1: Initiate", "CL-5: Senior Agent"] true).toRemove,
        ∀ L, CLEARANCE_ROLES L = some n → L < 2) ∧
      (∀ n, n ∈ (promote_user ["CL-0: Recruit", "CL-5: Senior Agent"] 2
          ["CL-0: Recruit", "CL-1: Initiate", "CL-5: Senior Agent"] true).toRemove ↔
        (n ∈ (["CL-0: Recruit", "CL-5: Senior Agent"] : List String) ∧
          ∃ L, L < 2 ∧ CLEARANCE_ROLES L = some n))) :=
  ⟨by decide,
    (sync_removes_exactly_below_target ["CL-0: Recruit", "CL-5: Senior Agent"] 2
      ["CL-0: Recruit", "CL-1: Initiate", "CL-5: Senior Agent"] true).1,
    (sync_removes_exactly_below_target ["CL-0: Recruit", "CL-5: Senior Agent"] 2
      ["CL-0: Recruit", "CL-1: Initiate", "CL-5: Senior Agent"] true).2 (by decide)⟩

/-- Claim C8: a role tag absent from the guild's catalog does not fail the
synchronizer: removals are exactly those computed with the richer catalog
minus the absent tag (the remaining tags are still processed), the
promotion announcement still proceeds, and only the absent target
addition is suppressed. -/
theorem sync_skips_missing_roles (roles : List String) (target : Nat) (guild : List String)
    (b : Bool) (x : String) (hx : ¬ x ∈ guild) :
    ((promote_user roles target guild b).toRemove
        = ((promote_user roles target (x :: guild) b).toRemove).filter
            (fun n => decide (¬ n = x))) ∧
    (promote_user roles target guild b).announced = b ∧
    ((promote_user roles target (x :: guild) b).toAdd = some x →
      (promote_user roles target guild b).toAdd = none) := by
  refine ⟨?_, rfl, ?_⟩
  · simp only [promote_user]
    rw [List.filter_filterMap]
    apply List.filterMap_congr
    intro L _
    cases hCR : CLEARANCE_ROLES L with
    | none => rfl
    | some name =>
      show (if name ∈ guild ∧ name ∈ roles then some name else none)
          = Option.filter (fun n => decide (¬ n = x))
              (if name ∈ x :: guild ∧ name ∈ roles then some name else none)
      by_cases hnx : name = x
      · subst hnx
        rw [if_neg (by exact fun h => hx h.1)]
        by_cases hroles : name ∈ roles
        · rw [if_pos ⟨List.mem_cons_self name guild, hroles⟩]
          simp [Option.filter]
        · rw [if_neg (by exact fun h => hroles h.2)]
          rfl
      · by_cases hc : name ∈ guild ∧ name ∈ roles
        · rw [if_pos hc, if_pos ⟨List.mem_cons_of_mem x hc.1, hc.2⟩]
          simp [Option.filter, hnx]
        · rw [if_neg hc, if_neg (by
            rintro ⟨hg, hr⟩
            rcases List.mem_cons.mp hg with h | h
            · exact hnx h
            · exact hc ⟨h, hr⟩)]
          rfl
  · intro h
    have h2 := (promote_user_toAdd_eq_some roles target (x :: guild) b x).mp h
    simp only [promote_user]
    rw [h2.1]
    show (if x ∈ guild then some x else none) = none
    rw [if_neg hx]

/-- Claim C8, witness: the level-1 tag is missing from a guild that only knows
the level-0 tag. -/
theorem sync_skips_missing_roles_witness :
    (¬ "CL-1: Initiate" ∈ (["CL-0: Recruit"] : List String)) ∧
    (((promote_user ["CL-0: Recruit"] 1 ["CL-0: Recruit"] true).toRemove
        = ((promote_user ["CL-0: Recruit"] 1 ["CL-1: Initiate", "CL-0: Recruit"] true).toRemove).filter
            (fun n => decide (¬ n = "CL-1: Initiate"))) ∧
    (promote_user ["CL-0: Recruit"] 1 ["CL-0: Recruit"] true).announced = true ∧
    ((promote_user ["CL-0: Recruit"] 1 ["CL-1: Initiate", "CL-0: Recruit"] true).toAdd
        = some "CL-1: Initiate" →
      (promote_user ["CL-0: Recruit"] 1 ["CL-0: Recruit"] true).toAdd = none)) :=
  ⟨by decide,
    sync_skips_missing_roles ["CL-0: Recruit"] 1 ["CL-0: Recruit"] true "CL-1: Initiate"
      (by decide)⟩
